import Mathlib

/-!
Verification development for the DLive pet-care PWA.

The persistent store (`services/storageService.ts`), the dashboard filter
(`App.tsx`), the task-creation handler (`App.tsx` / `PetsView`) and the
assistant call (`services/geminiService.ts`) are embedded as pure Lean
functions.  JavaScript `Date` values are modelled by their local civil
components (year, month, day-of-month, milliseconds within the day); the
`Date` methods used by the source (`setDate`, `getDate`, `toDateString`,
ordering of timestamps) act on exactly these components for a fixed local
offset, and ISO-string round-tripping through the store is the identity on
them.
-/

namespace DLive

/-- Local civil date-time: the components a JS `Date` exposes through
`getFullYear/getMonth/getDate` plus the time within the day.  `month` ranges
over 1..12 and `day` over 1..(length of month) for dates a `Date` produces. -/
structure CivilTime where
  year : Int
  month : Nat
  day : Nat
  msOfDay : Nat
deriving DecidableEq, Repr

/-- Gregorian leap-year test, as used by JS `Date` month arithmetic. -/
def isLeap (y : Int) : Bool :=
  (y % 4 == 0 && y % 100 != 0) || y % 400 == 0

/-- Number of days in a month of the Gregorian calendar. -/
def daysInMonth (y : Int) (m : Nat) : Nat :=
  if m = 2 then (if isLeap y then 29 else 28)
  else if m = 4 ∨ m = 6 ∨ m = 9 ∨ m = 11 then 30
  else 31

theorem daysInMonth_pos (y : Int) (m : Nat) : 0 < daysInMonth y m := by
  unfold daysInMonth
  split
  · split <;> omega
  · split <;> omega

/-- Day-of-month overflow normalisation: the rollover JS `setDate` performs
when handed a day count larger than the current month.  Structural recursion
on a fuel argument; `normDate` instantiates the fuel with the day count,
which always suffices because every step strictly decreases it. -/
def normDateAux : Nat → Int → Nat → Nat → Int × Nat × Nat
  | 0, y, m, d => (y, m, d)
  | fuel + 1, y, m, d =>
    if daysInMonth y m < d then
      if 12 ≤ m then normDateAux fuel (y + 1) 1 (d - daysInMonth y m)
      else normDateAux fuel y (m + 1) (d - daysInMonth y m)
    else (y, m, d)

/-- Normalise an out-of-range day-of-month to a proper calendar date. -/
def normDate (y : Int) (m d : Nat) : Int × Nat × Nat :=
  normDateAux d y m d

/-- Source: `t.addDays f` models `const nd = new Date(t); nd.setDate(t.getDate() + f)`
from `StorageService.completeTask`: day-of-month arithmetic with month/year
rollover, time of day untouched. -/
def CivilTime.addDays (t : CivilTime) (f : Nat) : CivilTime :=
  ⟨(normDate t.year t.month (t.day + f)).1,
   (normDate t.year t.month (t.day + f)).2.1,
   (normDate t.year t.month (t.day + f)).2.2,
   t.msOfDay⟩

/-- Spec-side definition of "one calendar day later": increment the
day-of-month, rolling into the next month or year at a month boundary
(so one day after Jan 31 is Feb 1).  Used to state that the code performs
calendar-day arithmetic. -/
def calendarSucc (t : CivilTime) : CivilTime :=
  if t.day < daysInMonth t.year t.month then { t with day := t.day + 1 }
  else if t.month < 12 then { t with month := t.month + 1, day := 1 }
  else { year := t.year + 1, month := 1, day := 1, msOfDay := t.msOfDay }

/-- A civil time whose date components denote a real calendar date. -/
def ValidDate (t : CivilTime) : Prop :=
  1 ≤ t.month ∧ t.month ≤ 12 ∧ 1 ≤ t.day ∧ t.day ≤ daysInMonth t.year t.month

instance : DecidablePred ValidDate := fun t => by
  unfold ValidDate
  exact inferInstance

/-- Timestamp order of two JS `Date`s (`a <= b` on epoch milliseconds),
expressed on local civil components: lexicographic for a fixed local offset. -/
def CivilTime.leb (a b : CivilTime) : Bool :=
  decide (a.year < b.year) || (decide (a.year = b.year) &&
    (decide (a.month < b.month) || (decide (a.month = b.month) &&
      (decide (a.day < b.day) || (decide (a.day = b.day) &&
        decide (a.msOfDay ≤ b.msOfDay))))))

/-- Equality of `toDateString()` renderings: same local calendar date. -/
def CivilTime.sameDay (a b : CivilTime) : Bool :=
  decide (a.year = b.year) && decide (a.month = b.month) && decide (a.day = b.day)

/-- Spec-side comparison: the dates truncated to calendar-date granularity,
`a`'s day on or before `b`'s day. -/
def CivilTime.dayLeb (a b : CivilTime) : Bool :=
  decide (a.year < b.year) || (decide (a.year = b.year) &&
    (decide (a.month < b.month) || (decide (a.month = b.month) &&
      decide (a.day ≤ b.day))))

theorem normDateAux_congr :
    ∀ (fuelA fuelB : Nat) (y : Int) (m d : Nat), 1 ≤ d → d ≤ fuelA → d ≤ fuelB →
      normDateAux fuelA y m d = normDateAux fuelB y m d := by
  intro fuelA
  induction fuelA with
  | zero => intro fuelB y m d h1 h2 h3; omega
  | succ k ih =>
    intro fuelB y m d h1 h2 h3
    cases fuelB with
    | zero => omega
    | succ j =>
      simp only [normDateAux]
      by_cases hc : daysInMonth y m < d
      · have hp := daysInMonth_pos y m
        simp only [if_pos hc]
        by_cases hm : 12 ≤ m
        · simp only [if_pos hm]
          exact ih j (y + 1) 1 (d - daysInMonth y m) (by omega) (by omega) (by omega)
        · simp only [if_neg hm]
          exact ih j y (m + 1) (d - daysInMonth y m) (by omega) (by omega) (by omega)
      · simp only [if_neg hc]

theorem calendarSucc_valid (t : CivilTime) (h : ValidDate t) :
    ValidDate (calendarSucc t) := by
  obtain ⟨h1, h2, h3, h4⟩ := h
  unfold calendarSucc
  by_cases hd : t.day < daysInMonth t.year t.month
  · rw [if_pos hd]
    show 1 ≤ t.month ∧ t.month ≤ 12 ∧ 1 ≤ t.day + 1 ∧
      t.day + 1 ≤ daysInMonth t.year t.month
    exact ⟨h1, h2, by omega, by omega⟩
  · rw [if_neg hd]
    by_cases hm : t.month < 12
    · rw [if_pos hm]
      show 1 ≤ t.month + 1 ∧ t.month + 1 ≤ 12 ∧ 1 ≤ 1 ∧
        1 ≤ daysInMonth t.year (t.month + 1)
      exact ⟨by omega, by omega, le_refl 1, daysInMonth_pos _ _⟩
    · rw [if_neg hm]
      show 1 ≤ 1 ∧ 1 ≤ 12 ∧ 1 ≤ 1 ∧ 1 ≤ daysInMonth (t.year + 1) 1
      exact ⟨le_refl 1, by omega, le_refl 1, daysInMonth_pos _ _⟩

theorem normDate_of_le (y : Int) (m d : Nat) (h3 : 1 ≤ d)
    (h4 : d ≤ daysInMonth y m) : normDate y m d = (y, m, d) := by
  unfold normDate
  cases ht : d with
  | zero => omega
  | succ k =>
    simp only [normDateAux]
    rw [if_neg (by omega)]

theorem addDays_zero (t : CivilTime) (h : ValidDate t) : t.addDays 0 = t := by
  obtain ⟨h1, h2, h3, h4⟩ := h
  unfold CivilTime.addDays
  rw [Nat.add_zero, normDate_of_le t.year t.month t.day h3 h4]

theorem addDays_succ (t : CivilTime) (f : Nat) (h : ValidDate t) :
    t.addDays (f + 1) = (calendarSucc t).addDays f := by
  obtain ⟨h1, h2, h3, h4⟩ := h
  by_cases hd : t.day < daysInMonth t.year t.month
  · have hcs : calendarSucc t = ⟨t.year, t.month, t.day + 1, t.msOfDay⟩ := by
      unfold calendarSucc
      rw [if_pos hd]
    rw [hcs]
    unfold CivilTime.addDays
    dsimp only
    have harg : t.day + (f + 1) = t.day + 1 + f := by omega
    rw [harg]
  · have hdim : t.day = daysInMonth t.year t.month := by omega
    have hp := daysInMonth_pos t.year t.month
    have hunf : normDate t.year t.month (t.day + (f + 1)) =
        if 12 ≤ t.month
        then normDateAux (t.day + f) (t.year + 1) 1 (f + 1)
        else normDateAux (t.day + f) t.year (t.month + 1) (f + 1) := by
      unfold normDate
      have hstep : t.day + (f + 1) = (t.day + f) + 1 := by omega
      rw [hstep]
      simp only [normDateAux]
      rw [if_pos (by omega)]
      have hsub : t.day + f + 1 - daysInMonth t.year t.month = f + 1 := by omega
      rw [hsub]
    by_cases hm : t.month < 12
    · have hcs : calendarSucc t = ⟨t.year, t.month + 1, 1, t.msOfDay⟩ := by
        unfold calendarSucc
        rw [if_neg hd, if_pos hm]
      rw [hcs]
      unfold CivilTime.addDays
      dsimp only
      rw [hunf, if_neg (by omega)]
      unfold normDate
      have h1f : 1 + f = f + 1 := by omega
      rw [h1f]
      rw [normDateAux_congr (t.day + f) (f + 1) t.year (t.month + 1) (f + 1)
        (by omega) (by omega) (by omega)]
    · have hcs : calendarSucc t = ⟨t.year + 1, 1, 1, t.msOfDay⟩ := by
        unfold calendarSucc
        rw [if_neg hd, if_neg hm]
      rw [hcs]
      unfold CivilTime.addDays
      dsimp only
      rw [hunf, if_pos (by omega)]
      unfold normDate
      have h1f : 1 + f = f + 1 := by omega
      rw [h1f]
      rw [normDateAux_congr (t.day + f) (f + 1) (t.year + 1) 1 (f + 1)
        (by omega) (by omega) (by omega)]

/-- The code's day-of-month jump `setDate(getDate() + f)` agrees with `f`
iterations of the spec's calendar-day successor on any real calendar date. -/
theorem addDays_eq_iterate (t : CivilTime) (f : Nat) (h : ValidDate t) :
    t.addDays f = calendarSucc^[f] t := by
  induction f generalizing t with
  | zero => simpa using addDays_zero t h
  | succ n ih =>
    rw [addDays_succ t n h, ih (calendarSucc t) (calendarSucc_valid t h),
      Function.iterate_succ_apply]

/-! ## Data model (`types.ts`) -/

/-- Source: `TaskType` from `types.ts`. -/
inductive TaskType
  | pill
  | nails
  | ears
  | other
deriving DecidableEq, Repr

/-- Source: `Pet` from `types.ts`. -/
structure Pet where
  id : String
  name : String
  breed : String
  weight : Option Int
  imageUrl : String
deriving DecidableEq, Repr

/-- Source: `Task` from `types.ts`.  The ISO date strings are modelled by the civil
components they denote. -/
structure Task where
  id : String
  petId : String
  type : TaskType
  title : String
  frequencyDays : Nat
  lastDoneDate : Option CivilTime
  nextDueDate : CivilTime
deriving DecidableEq, Repr

/-- Durable state owned by `StorageService`: the two IndexedDB object stores
(both with `keyPath: 'id'`) and the two LocalStorage preference keys
(`dlive_theme`, `dlive_notifications`), which hold a string or are unset. -/
structure Store where
  pets : List Pet
  tasks : List Task
  theme : Option String
  notifications : Option String
deriving DecidableEq, Repr

/-- Fault raised by the storage engine.  The two fault points behave
differently in the source: `openError` is a rejection of the awaited
`openDB()` promise, whereas `requestError` is an `onerror` firing on an
individual IndexedDB request (`getAll`/`put`), which rejects the promise the
operation returns. -/
inductive StorageFault
  | openError
  | requestError
deriving DecidableEq, Repr

/-- IndexedDB `store.put` on a store with `keyPath: 'id'`: the record under
that key is replaced, or inserted if absent; keys are unique in the store. -/
def putPetRecord (p : Pet) (ps : List Pet) : List Pet :=
  ps.filter (fun q => q.id != p.id) ++ [p]

/-- IndexedDB `store.put` for the `tasks` object store. -/
def putTaskRecord (t : Task) (ts : List Task) : List Task :=
  ts.filter (fun u => u.id != t.id) ++ [t]

/-! ## `StorageService` (`services/storageService.ts`) -/

namespace StorageService

/-- Source: `getPets`: `const db = await openDB()` inside `try/catch`, then
`return new Promise(...)` running `getAll()`.  The `catch` intercepts only
the awaited `openDB` rejection and resolves with `[]`; the returned inner
promise is not awaited, so a `getAll` request error rejects it and that
rejection propagates to the caller uncaught. -/
def getPets (openFault reqFault : Bool) (s : Store) :
    Except StorageFault (List Pet) :=
  if openFault then Except.ok []
  else if reqFault then Except.error StorageFault.requestError
  else Except.ok s.pets

/-- Source: `getTasks`: same shape as `getPets` — only the open fault is
degraded to `[]`, a request fault propagates. -/
def getTasks (openFault reqFault : Bool) (s : Store) :
    Except StorageFault (List Task) :=
  if openFault then Except.ok []
  else if reqFault then Except.error StorageFault.requestError
  else Except.ok s.tasks

/-- The state change `savePet` performs when nothing faults. -/
def savePetCore (p : Pet) (s : Store) : Store :=
  { s with pets := putPetRecord p s.pets }

/-- Source: `savePet`: no `try/catch` at all — an `openDB` rejection
propagates through the `await`, and a `put` request error rejects the
returned promise. -/
def savePet (openFault reqFault : Bool) (p : Pet) (s : Store) :
    Except StorageFault Store :=
  if openFault then Except.error StorageFault.openError
  else if reqFault then Except.error StorageFault.requestError
  else Except.ok (savePetCore p s)

/-- The state change `saveTask` performs when nothing faults. -/
def saveTaskCore (t : Task) (s : Store) : Store :=
  { s with tasks := putTaskRecord t s.tasks }

/-- Source: `saveTask`: `store.put(task)`, both fault kinds reject. -/
def saveTask (openFault reqFault : Bool) (t : Task) (s : Store) :
    Except StorageFault Store :=
  if openFault then Except.error StorageFault.openError
  else if reqFault then Except.error StorageFault.requestError
  else Except.ok (saveTaskCore t s)

/-- Source: `deletePet`: one readwrite transaction over both stores that deletes the
pet under `id` and cursors over all tasks deleting every one whose `petId`
equals `id`. -/
def deletePet (id : String) (s : Store) : Store :=
  { s with
    pets := s.pets.filter (fun p => p.id != id),
    tasks := s.tasks.filter (fun t => t.petId != id) }

/-- Source: `deleteTask`: `store.delete(id)` on the `tasks` store. -/
def deleteTask (id : String) (s : Store) : Store :=
  { s with tasks := s.tasks.filter (fun t => t.id != id) }

/-- The record update inside `completeTask`: `lastDoneDate = now`,
`nextDueDate = now` advanced by `frequencyDays` via `setDate`. -/
def completeRecord (now : CivilTime) (t : Task) : Task :=
  { t with
    lastDoneDate := some now,
    nextDueDate := now.addDays t.frequencyDays }

/-- Source: `completeTask`: `store.get(taskId)`; if the record exists, write the
updated record back with `store.put`, otherwise do nothing. -/
def completeTask (now : CivilTime) (taskId : String) (s : Store) : Store :=
  match s.tasks.find? (fun t => t.id == taskId) with
  | none => s
  | some t => { s with tasks := putTaskRecord (completeRecord now t) s.tasks }

/-- Source: `clearAllData`: `clear()` on both object stores and `removeItem` on both
preference keys. -/
def clearAllData (_s : Store) : Store :=
  { pets := [], tasks := [], theme := none, notifications := none }

/-- Source: `getTheme`: `localStorage.getItem(THEME_KEY) || 'light'` — an unset key
(and, through JS truthiness, an empty string) yields `'light'`. -/
def getTheme (s : Store) : String :=
  match s.theme with
  | none => "light"
  | some t => if t = "" then "light" else t

/-- Source: `saveTheme`. -/
def saveTheme (t : String) (s : Store) : Store :=
  { s with theme := some t }

/-- Source: `getNotificationSettings`: `getItem(NOTIFICATIONS_KEY) === 'true'`. -/
def getNotificationSettings (s : Store) : Bool :=
  s.notifications == some "true"

/-- Source: `saveNotificationSettings`: `setItem(..., String(enabled))`. -/
def saveNotificationSettings (enabled : Bool) (s : Store) : Store :=
  { s with notifications := some (toString enabled) }

end StorageService

/-! ## `GeminiService` (`services/geminiService.ts`) -/

/-- Outcome of the `ai.models.generateContent` call: a response whose `text`
field is the given string (empty models a missing/empty `text`), or a thrown
error (network failure, malformed response, API rejection). -/
inductive GeminiOutcome
  | success (text : String)
  | failure
deriving DecidableEq, Repr

/-- Fallback returned when `process.env.API_KEY` is unset. -/
def msgNoApiKey : String :=
  "Пожалуйста, настройте API Key для работы помощника."

/-- Fallback returned when the response carries no text. -/
def msgEmptyAnswer : String :=
  "Извините, я не смог придумать ответ."

/-- Fallback returned from the `catch` block. -/
def msgApiError : String :=
  "Произошла ошибка при связи с сервером AI. Попробуйте позже."

namespace GeminiService

/-- Source: `askAssistant`: early return on a missing key; otherwise the call either
succeeds (returning `response.text || fallback`) or throws into the `catch`. -/
def askAssistant (apiKey message : String) (outcome : GeminiOutcome) : String :=
  if apiKey = "" then msgNoApiKey
  else
    match outcome with
    | GeminiOutcome.failure => msgApiError
    | GeminiOutcome.success t => if t = "" then msgEmptyAnswer else t

end GeminiService

/-! ## Dashboard and pet views (`App.tsx`) -/

/-- The dashboard's two views. -/
inductive TaskFilter
  | all
  | today
deriving DecidableEq, Repr

/-- Source: `DashboardView.filteredTasks`: under `'all'` no filter; under `'today'`
keep a task when `new Date(task.nextDueDate) <= new Date()` or the two render
the same `toDateString()`. -/
def filteredTasks (filter : TaskFilter) (now : CivilTime) (tasks : List Task) :
    List Task :=
  tasks.filter (fun task =>
    match filter with
    | TaskFilter.all => true
    | TaskFilter.today =>
      CivilTime.leb task.nextDueDate now || CivilTime.sameDay task.nextDueDate now)

/-- Insert into a list sorted by ascending `nextDueDate`. -/
def insertByDue (t : Task) : List Task → List Task
  | [] => [t]
  | u :: us =>
    if CivilTime.leb t.nextDueDate u.nextDueDate then t :: u :: us
    else u :: insertByDue t us

/-- Source: `DashboardView.loadData`'s
`sort((a, b) => new Date(a.nextDueDate).getTime() - new Date(b.nextDueDate).getTime())`:
sort ascending by `nextDueDate`. -/
def sortByDue : List Task → List Task
  | [] => []
  | t :: ts => insertByDue t (sortByDue ts)

/-- Source: `PetsView.handleAddTask`: bail out if the title is empty or no pet sheet
is open; otherwise build the new task (`lastDoneDate: null`,
`nextDueDate: new Date().toISOString()`, `frequencyDays: Number(newTaskFreq)`)
and save it.  `newId` stands for `Date.now().toString()`. -/
def handleAddTask (now : CivilTime) (newTaskTitle : String)
    (showAddTask : Option String) (newTaskType : TaskType) (newTaskFreq : Nat)
    (newId : String) : Option Task :=
  if newTaskTitle = "" then none
  else
    match showAddTask with
    | none => none
    | some petId =>
      some
        { id := newId
          petId := petId
          type := newTaskType
          title := newTaskTitle
          frequencyDays := newTaskFreq
          lastDoneDate := none
          nextDueDate := now }

/-! ## List helper lemmas -/

theorem filter_key_nil {α : Type} (key : α → String) (i : String) (l : List α) :
    (l.filter (fun a => key a != i)).filter (fun a => key a == i) = [] := by
  induction l with
  | nil => rfl
  | cons a as ih =>
    by_cases h : key a = i
    · simp [List.filter_cons, h, ih]
    · simp [List.filter_cons, h, ih]

theorem filter_id_pets (i : String) (l : List Pet) :
    (l.filter (fun q => q.id != i)).filter (fun q => q.id == i) = [] :=
  filter_key_nil (fun q => q.id) i l

theorem filter_id_tasks (i : String) (l : List Task) :
    (l.filter (fun u => u.id != i)).filter (fun u => u.id == i) = [] :=
  filter_key_nil (fun u => u.id) i l

theorem filter_petId_tasks (i : String) (l : List Task) :
    (l.filter (fun u => u.petId != i)).filter (fun u => u.petId == i) = [] :=
  filter_key_nil (fun u => u.petId) i l

theorem filter_eq_self_of_all {α : Type} (p : α → Bool) (l : List α)
    (h : ∀ a ∈ l, p a = true) : l.filter p = l := by
  induction l with
  | nil => rfl
  | cons a as ih =>
    rw [List.filter_cons, if_pos (h a (List.mem_cons_self a as)),
      ih (fun b hb => h b (List.mem_cons_of_mem a hb))]

/-! ## Concrete demonstration data -/

/-- A concrete pet record. -/
def demoPet : Pet :=
  { id := "p1", name := "Rex", breed := "Лабрадор", weight := some 30,
    imageUrl := "img" }

/-- A concrete task due on Jan 31 2025, recurring every day. -/
def demoTask : Task :=
  { id := "t1", petId := "p1", type := TaskType.nails, title := "Когти",
    frequencyDays := 1, lastDoneDate := none, nextDueDate := ⟨2025, 1, 31, 0⟩ }

/-- A store holding `demoPet` and `demoTask` plus set preferences. -/
def demoStore : Store :=
  { pets := [demoPet], tasks := [demoTask], theme := some "dark",
    notifications := some "true" }

/-- A completion instant: Jan 31 2025, 10:00 local. -/
def demoT : CivilTime := ⟨2025, 1, 31, 36000000⟩

/-- An empty store. -/
def emptyStore : Store :=
  { pets := [], tasks := [], theme := none, notifications := none }

/-- A task whose `petId` references no stored pet; reachable because
`saveTask` performs no foreign-key check (integrity is procedural only). -/
def orphanTask : Task :=
  { id := "t1", petId := "p1", type := TaskType.pill, title := "Витамины",
    frequencyDays := 7, lastDoneDate := none, nextDueDate := ⟨2025, 6, 15, 0⟩ }

/-- The store obtained by saving `orphanTask` into an empty store. -/
def orphanStore : Store := StorageService.saveTaskCore orphanTask emptyStore

/-- The dashboard's "now": Jun 15 2025, noon. -/
def demoNow : CivilTime := ⟨2025, 6, 15, 43200000⟩

/-- A task due the previous day. -/
def taskYesterday : Task :=
  { id := "a", petId := "p1", type := TaskType.pill, title := "Вчера",
    frequencyDays := 3, lastDoneDate := none, nextDueDate := ⟨2025, 6, 14, 50400000⟩ }

/-- A task due later the same day (18:00, after "now"). -/
def taskToday : Task :=
  { id := "b", petId := "p1", type := TaskType.ears, title := "Сегодня",
    frequencyDays := 5, lastDoneDate := none, nextDueDate := ⟨2025, 6, 15, 64800000⟩ }

/-- A task due the next day. -/
def taskTomorrow : Task :=
  { id := "c", petId := "p1", type := TaskType.other, title := "Завтра",
    frequencyDays := 7, lastDoneDate := none, nextDueDate := ⟨2025, 6, 16, 3600000⟩ }

/-- The three tasks, deliberately out of order. -/
def demoThree : List Task := [taskTomorrow, taskYesterday, taskToday]

/-! ## Shared facts about `completeTask` -/

theorem completeTask_eq (s : Store) (taskId : String) (t : Task)
    (now : CivilTime)
    (hfind : s.tasks.find? (fun u => u.id == taskId) = some t) :
    StorageService.completeTask now taskId s =
      { s with
        tasks := putTaskRecord (StorageService.completeRecord now t) s.tasks } := by
  unfold StorageService.completeTask
  rw [hfind]

theorem completeRecord_id (now : CivilTime) (t : Task) :
    (StorageService.completeRecord now t).id = t.id := rfl

theorem completeTask_target (s : Store) (taskId : String) (t : Task)
    (now : CivilTime)
    (hfind : s.tasks.find? (fun u => u.id == taskId) = some t) :
    (StorageService.completeTask now taskId s).tasks.filter
        (fun u => u.id == taskId) =
      [StorageService.completeRecord now t] := by
  have hid : t.id = taskId := by simpa using List.find?_some hfind
  rw [completeTask_eq s taskId t now hfind]
  show (putTaskRecord (StorageService.completeRecord now t) s.tasks).filter
      (fun u => u.id == taskId) = _
  unfold putTaskRecord
  rw [completeRecord_id, hid, List.filter_append, filter_id_tasks]
  simp [completeRecord_id, hid]

/-! ## Claims -/

/-- C1: for every pet id, `deletePet id` removes the pet record and, in the
same unit of work, every task whose `petId` equals that id: a fault-free
read afterwards returns exactly the stored collections, the stored task
collection holds no task referencing the id, and the stored pet collection
holds no pet with the id. -/
theorem deletePet_cascade_integrity (id : String) (s : Store) :
    StorageService.getTasks false false (StorageService.deletePet id s) =
      Except.ok ((StorageService.deletePet id s).tasks) ∧
    StorageService.getPets false false (StorageService.deletePet id s) =
      Except.ok ((StorageService.deletePet id s).pets) ∧
    (StorageService.deletePet id s).tasks.filter
        (fun t => t.petId == id) = [] ∧
    ∀ p ∈ (StorageService.deletePet id s).pets, p.id ≠ id := by
  refine ⟨rfl, rfl, ?_, ?_⟩
  · show (s.tasks.filter (fun t => t.petId != id)).filter
        (fun t => t.petId == id) = []
    exact filter_petId_tasks id s.tasks
  · intro p hp
    have hp2 : p ∈ s.pets.filter (fun q => q.id != id) := hp
    rw [List.mem_filter] at hp2
    simpa using hp2.2

/-- C2: completing the stored task found under `taskId`, with
`frequencyDays = F`, at instant `T` replaces that record in full: afterwards
the unique record under the id keeps every other field and has
`lastDoneDate = T` and `nextDueDate` equal to `T` advanced by `F` iterations
of the calendar-day successor (calendar-day arithmetic, time of day kept). -/
theorem completeTask_advances_schedule (s : Store) (taskId : String) (t : Task)
    (T : CivilTime)
    (hfind : s.tasks.find? (fun u => u.id == taskId) = some t)
    (hT : ValidDate T) :
    (StorageService.completeTask T taskId s).tasks.filter
        (fun u => u.id == taskId) =
      [{ t with
          lastDoneDate := some T,
          nextDueDate := calendarSucc^[t.frequencyDays] T }] := by
  rw [completeTask_target s taskId t T hfind]
  unfold StorageService.completeRecord
  rw [addDays_eq_iterate T t.frequencyDays hT]

/-- C2 witness: in `demoStore`, completing `demoTask` (frequency 1 day) at
Jan 31 2025 10:00 yields `lastDoneDate` at that instant and `nextDueDate` on
Feb 1 2025 (one calendar-day successor). -/
theorem completeTask_advances_schedule_witness :
    (demoStore.tasks.find? (fun u => u.id == "t1") = some demoTask ∧
      ValidDate demoT) ∧
    (StorageService.completeTask demoT "t1" demoStore).tasks.filter
        (fun u => u.id == "t1") =
      [{ demoTask with
          lastDoneDate := some demoT,
          nextDueDate := calendarSucc^[demoTask.frequencyDays] demoT }] :=
  ⟨⟨by decide, by decide⟩,
    completeTask_advances_schedule demoStore "t1" demoTask demoT
      (by decide) (by decide)⟩

/-- C3 counterexample: `"p1"` is the id of no stored record in
`orphanStore` (its only record is the task with id `"t1"`), yet
`deletePet "p1"` changes the store, because it deletes the orphaned task
whose `petId` is `"p1"`. -/
theorem deletePet_absent_id_changes_store :
    (∀ p ∈ orphanStore.pets, p.id ≠ "p1") ∧
    (∀ t ∈ orphanStore.tasks, t.id ≠ "p1") ∧
    StorageService.deletePet "p1" orphanStore ≠ orphanStore := by
  refine ⟨by decide, by decide, by decide⟩

/-- C3 (amended): for an id that is the id of no stored record,
`deleteTask` and `completeTask` leave the store unchanged and succeed; so
does `deletePet`, provided additionally no stored task references the id
through `petId` — otherwise `deletePet` still removes those orphaned
tasks. -/
theorem absent_id_operations_noop (s : Store) (id : String) (now : CivilTime)
    (hpet : ∀ p ∈ s.pets, p.id ≠ id)
    (htask : ∀ t ∈ s.tasks, t.id ≠ id) :
    StorageService.deleteTask id s = s ∧
    StorageService.completeTask now id s = s ∧
    ((∀ t ∈ s.tasks, t.petId ≠ id) → StorageService.deletePet id s = s) := by
  refine ⟨?_, ?_, ?_⟩
  · show { s with tasks := s.tasks.filter (fun t => t.id != id) } = s
    rw [filter_eq_self_of_all _ _ (fun t ht => by simpa using htask t ht)]
  · unfold StorageService.completeTask
    rw [List.find?_eq_none.mpr (fun t ht => by simpa using htask t ht)]
  · intro href
    show { s with
        pets := s.pets.filter (fun p => p.id != id),
        tasks := s.tasks.filter (fun t => t.petId != id) } = s
    rw [filter_eq_self_of_all _ _ (fun p hp => by simpa using hpet p hp),
      filter_eq_self_of_all _ _ (fun t ht => by simpa using href t ht)]

/-- C3 (amended) witness: on `orphanStore`, where `"p1"` is no record's id,
`deleteTask` and `completeTask` at `"p1"` are unconditional no-ops; the
`deletePet` no-op holds under its proviso (which `orphanStore` in fact
violates, as the C3 counterexample shows). -/
theorem absent_id_operations_noop_witness :
    ((∀ p ∈ orphanStore.pets, p.id ≠ "p1") ∧
     (∀ t ∈ orphanStore.tasks, t.id ≠ "p1")) ∧
    (StorageService.deleteTask "p1" orphanStore = orphanStore ∧
     StorageService.completeTask ⟨2025, 1, 1, 0⟩ "p1" orphanStore =
        orphanStore ∧
     ((∀ t ∈ orphanStore.tasks, t.petId ≠ "p1") →
        StorageService.deletePet "p1" orphanStore = orphanStore)) :=
  ⟨⟨by decide, by decide⟩,
    absent_id_operations_noop orphanStore "p1" ⟨2025, 1, 1, 0⟩
      (by decide) (by decide)⟩

/-- C4 counterexample: a storage fault on which the reads do not return an
empty collection — a `getAll` request error escapes the `try/catch` (which
guards only the awaited `openDB()`) and propagates to the caller, on
`getPets` and `getTasks` alike. -/
theorem read_request_fault_propagates :
    StorageService.getPets false true emptyStore =
      Except.error StorageFault.requestError ∧
    StorageService.getPets false true emptyStore ≠ Except.ok [] ∧
    StorageService.getTasks false true emptyStore =
      Except.error StorageFault.requestError ∧
    StorageService.getTasks false true emptyStore ≠ Except.ok [] :=
  ⟨rfl, fun h => Except.noConfusion h, rfl, fun h => Except.noConfusion h⟩

/-- C4 (amended): on a storage-open fault the reads `getPets`/`getTasks`
resolve with an empty collection instead of propagating, while a
request-level fault in a read propagates to the caller; the writes
`savePet`/`saveTask` propagate both kinds of fault. -/
theorem storage_fault_policy (s : Store) (p : Pet) (t : Task) :
    StorageService.getPets true false s = Except.ok [] ∧
    StorageService.getPets true true s = Except.ok [] ∧
    StorageService.getTasks true false s = Except.ok [] ∧
    StorageService.getTasks true true s = Except.ok [] ∧
    StorageService.getPets false true s =
      Except.error StorageFault.requestError ∧
    StorageService.getTasks false true s =
      Except.error StorageFault.requestError ∧
    StorageService.savePet true false p s =
      Except.error StorageFault.openError ∧
    StorageService.savePet false true p s =
      Except.error StorageFault.requestError ∧
    StorageService.saveTask true false t s =
      Except.error StorageFault.openError ∧
    StorageService.saveTask false true t s =
      Except.error StorageFault.requestError :=
  ⟨rfl, rfl, rfl, rfl, rfl, rfl, rfl, rfl, rfl, rfl⟩

/-- C5: a fault-free `savePet`/`saveTask` succeeds and upserts by id: after
the write exactly one record carries the written id and it equals the newly
written record in every field (no merging with a previous record). -/
theorem put_replace_semantics (s : Store) (p : Pet) (t : Task) :
    StorageService.savePet false false p s =
      Except.ok (StorageService.savePetCore p s) ∧
    (StorageService.savePetCore p s).pets.filter (fun q => q.id == p.id) =
      [p] ∧
    StorageService.saveTask false false t s =
      Except.ok (StorageService.saveTaskCore t s) ∧
    (StorageService.saveTaskCore t s).tasks.filter (fun u => u.id == t.id) =
      [t] := by
  refine ⟨rfl, ?_, rfl, ?_⟩
  · show ((s.pets.filter (fun q => q.id != p.id)) ++ [p]).filter
        (fun q => q.id == p.id) = [p]
    rw [List.filter_append, filter_id_pets]
    simp
  · show ((s.tasks.filter (fun u => u.id != t.id)) ++ [t]).filter
        (fun u => u.id == t.id) = [t]
    rw [List.filter_append, filter_id_tasks]
    simp

/-- C7: after `clearAllData`, the reads return empty collections and the
preferences read back as their defaults: theme `'light'`, notifications
disabled. -/
theorem clearAll_defaults (s : Store) :
    StorageService.getPets false false (StorageService.clearAllData s) =
      Except.ok [] ∧
    StorageService.getTasks false false (StorageService.clearAllData s) =
      Except.ok [] ∧
    StorageService.getTheme (StorageService.clearAllData s) = "light" ∧
    StorageService.getNotificationSettings (StorageService.clearAllData s) =
      false :=
  ⟨rfl, rfl, rfl, rfl⟩

theorem leb_or_sameDay_eq_dayLeb (a b : CivilTime) :
    (CivilTime.leb a b || CivilTime.sameDay a b) = CivilTime.dayLeb a b := by
  have hbool : ∀ x y : Bool, (x = true ↔ y = true) → x = y := by decide
  apply hbool
  simp only [CivilTime.leb, CivilTime.sameDay, CivilTime.dayLeb,
    Bool.or_eq_true, Bool.and_eq_true, decide_eq_true_eq]
  omega

/-- C6: the `'today'` view keeps exactly the tasks whose `nextDueDate`,
truncated to calendar-date granularity, is on or before today's date (the
code's mixed timestamp/same-day test is equivalent to that truncated
comparison); the `'all'` view keeps everything; on tasks due yesterday,
later today and tomorrow, sorted as the dashboard loads them, the `'today'`
view holds the first two in ascending order and the `'all'` view holds all
three ascending. -/
theorem dueToday_filter_semantics :
    (∀ (now : CivilTime) (ts : List Task),
        filteredTasks TaskFilter.today now ts =
          ts.filter (fun task => CivilTime.dayLeb task.nextDueDate now)) ∧
    (∀ (now : CivilTime) (ts : List Task),
        filteredTasks TaskFilter.all now ts = ts) ∧
    filteredTasks TaskFilter.today demoNow (sortByDue demoThree) =
      [taskYesterday, taskToday] ∧
    filteredTasks TaskFilter.all demoNow (sortByDue demoThree) =
      [taskYesterday, taskToday, taskTomorrow] := by
  refine ⟨?_, ?_, by decide, by decide⟩
  · intro now ts
    unfold filteredTasks
    congr 1
    funext task
    exact leb_or_sameDay_eq_dayLeb task.nextDueDate now
  · intro now ts
    unfold filteredTasks
    exact List.filter_true ts

/-- C8 counterexample: with the frequency field holding `0` (reachable:
typing `0` runs `parseInt` and stores `0`; the input's `min={1}` attribute
does not block typed values), `handleAddTask` persists a task whose
`frequencyDays` is `0` — the handler enforces no minimum of 1. -/
theorem handleAddTask_accepts_zero_frequency :
    handleAddTask demoNow "Глистогонное" (some "p1") TaskType.pill 0 "t9" =
      some
        { id := "t9", petId := "p1", type := TaskType.pill,
          title := "Глистогонное", frequencyDays := 0, lastDoneDate := none,
          nextDueDate := demoNow } ∧
    ({ id := "t9", petId := "p1", type := TaskType.pill,
       title := "Глистогонное", frequencyDays := 0, lastDoneDate := none,
       nextDueDate := demoNow } : Task).frequencyDays = 0 := by
  refine ⟨by decide, rfl⟩

/-- C8 (amended): every task `handleAddTask` creates has `nextDueDate`
equal to the creation instant (immediately due), `lastDoneDate` null, and
`frequencyDays` equal to whatever number the form state holds; the minimum
of 1 exists only as the number input's default value and `min` attribute,
not as a check in the creation path. -/
theorem handleAddTask_new_task_fields (now : CivilTime) (title : String)
    (sheet : Option String) (tt : TaskType) (freq : Nat) (newId : String)
    (task : Task)
    (h : handleAddTask now title sheet tt freq newId = some task) :
    task.nextDueDate = now ∧ task.lastDoneDate = none ∧
    task.frequencyDays = freq := by
  unfold handleAddTask at h
  by_cases ht : title = ""
  · rw [if_pos ht] at h
    exact absurd h (by simp)
  · rw [if_neg ht] at h
    cases sheet with
    | none => exact absurd h (by simp)
    | some petId =>
      simp only [Option.some.injEq] at h
      rw [← h]
      exact ⟨rfl, rfl, rfl⟩

/-- C8 (amended) witness: a concrete creation at `demoNow` with frequency 3
produces a task due immediately with a null `lastDoneDate`. -/
theorem handleAddTask_new_task_fields_witness :
    handleAddTask demoNow "Корм" (some "p1") TaskType.other 3 "t5" =
      some
        { id := "t5", petId := "p1", type := TaskType.other, title := "Корм",
          frequencyDays := 3, lastDoneDate := none, nextDueDate := demoNow } ∧
    (({ id := "t5", petId := "p1", type := TaskType.other, title := "Корм",
        frequencyDays := 3, lastDoneDate := none,
        nextDueDate := demoNow } : Task).nextDueDate = demoNow ∧
     ({ id := "t5", petId := "p1", type := TaskType.other, title := "Корм",
        frequencyDays := 3, lastDoneDate := none,
        nextDueDate := demoNow } : Task).lastDoneDate = none ∧
     ({ id := "t5", petId := "p1", type := TaskType.other, title := "Корм",
        frequencyDays := 3, lastDoneDate := none,
        nextDueDate := demoNow } : Task).frequencyDays = 3) :=
  ⟨by decide,
    handleAddTask_new_task_fields demoNow "Корм" (some "p1") TaskType.other 3
      "t5"
      { id := "t5", petId := "p1", type := TaskType.other, title := "Корм",
        frequencyDays := 3, lastDoneDate := none, nextDueDate := demoNow }
      (by decide)⟩

/-- C9: whenever the credential is missing or the call faults (throws, or
returns an empty/missing text), `askAssistant` returns one of the three
fixed Russian fallback strings, never a raw error. -/
theorem askAssistant_fault_fallbacks (apiKey message : String)
    (outcome : GeminiOutcome)
    (h : apiKey = "" ∨ outcome = GeminiOutcome.failure ∨
      outcome = GeminiOutcome.success "") :
    GeminiService.askAssistant apiKey message outcome = msgNoApiKey ∨
    GeminiService.askAssistant apiKey message outcome = msgEmptyAnswer ∨
    GeminiService.askAssistant apiKey message outcome = msgApiError := by
  unfold GeminiService.askAssistant
  by_cases hk : apiKey = ""
  · rw [if_pos hk]
    exact Or.inl rfl
  · rw [if_neg hk]
    rcases h with h | h | h
    · exact absurd h hk
    · rw [h]
      exact Or.inr (Or.inr rfl)
    · rw [h]
      exact Or.inr (Or.inl rfl)

/-- C9 witness: with no API key configured, a concrete call maps to the
fixed configuration-apology string. -/
theorem askAssistant_fault_fallbacks_witness :
    ("" = "" ∨ GeminiOutcome.failure = GeminiOutcome.failure ∨
      GeminiOutcome.failure = GeminiOutcome.success "") ∧
    (GeminiService.askAssistant "" "Привет" GeminiOutcome.failure =
        msgNoApiKey ∨
     GeminiService.askAssistant "" "Привет" GeminiOutcome.failure =
        msgEmptyAnswer ∨
     GeminiService.askAssistant "" "Привет" GeminiOutcome.failure =
        msgApiError) :=
  ⟨Or.inl rfl,
    askAssistant_fault_fallbacks "" "Привет" GeminiOutcome.failure
      (Or.inl rfl)⟩

/-- C10: `completeTask` touches nothing but the targeted task's two date
fields: the pet collection and both preferences are unchanged, every task
with a different id is kept exactly as stored (in both directions), and the
record under the target id equals the prior record with only `lastDoneDate`
and `nextDueDate` replaced — `id`, `petId`, `type`, `title` and
`frequencyDays` are untouched. -/
theorem completeTask_frame (s : Store) (taskId : String) (t : Task)
    (T : CivilTime)
    (hfind : s.tasks.find? (fun u => u.id == taskId) = some t) :
    (StorageService.completeTask T taskId s).pets = s.pets ∧
    (StorageService.completeTask T taskId s).theme = s.theme ∧
    (StorageService.completeTask T taskId s).notifications =
      s.notifications ∧
    (∀ u ∈ s.tasks, u.id ≠ taskId →
      u ∈ (StorageService.completeTask T taskId s).tasks) ∧
    (∀ u ∈ (StorageService.completeTask T taskId s).tasks, u.id ≠ taskId →
      u ∈ s.tasks) ∧
    (StorageService.completeTask T taskId s).tasks.filter
        (fun u => u.id == taskId) =
      [{ t with
          lastDoneDate := some T,
          nextDueDate := T.addDays t.frequencyDays }] := by
  have hid : t.id = taskId := by simpa using List.find?_some hfind
  have htgt := completeTask_target s taskId t T hfind
  rw [completeTask_eq s taskId t T hfind] at htgt ⊢
  refine ⟨rfl, rfl, rfl, ?_, ?_, htgt⟩
  · intro u hu hne
    show u ∈ putTaskRecord (StorageService.completeRecord T t) s.tasks
    unfold putTaskRecord
    rw [completeRecord_id, hid]
    exact List.mem_append_left _
      (List.mem_filter.mpr ⟨hu, by simpa using hne⟩)
  · intro u hu hne
    have hu2 : u ∈ putTaskRecord (StorageService.completeRecord T t)
        s.tasks := hu
    unfold putTaskRecord at hu2
    rcases List.mem_append.mp hu2 with hmem | hmem
    · exact List.mem_of_mem_filter hmem
    · exfalso
      have hequ : u = StorageService.completeRecord T t := by
        simpa using hmem
      apply hne
      rw [hequ, completeRecord_id, hid]

/-- C10 witness: the frame property applied to `demoStore` at instant
`demoT`. -/
theorem completeTask_frame_witness :
    demoStore.tasks.find? (fun u => u.id == "t1") = some demoTask ∧
    ((StorageService.completeTask demoT "t1" demoStore).pets =
        demoStore.pets ∧
     (StorageService.completeTask demoT "t1" demoStore).theme =
        demoStore.theme ∧
     (StorageService.completeTask demoT "t1" demoStore).notifications =
        demoStore.notifications ∧
     (∀ u ∈ demoStore.tasks, u.id ≠ "t1" →
        u ∈ (StorageService.completeTask demoT "t1" demoStore).tasks) ∧
     (∀ u ∈ (StorageService.completeTask demoT "t1" demoStore).tasks,
        u.id ≠ "t1" → u ∈ demoStore.tasks) ∧
     (StorageService.completeTask demoT "t1" demoStore).tasks.filter
          (fun u => u.id == "t1") =
        [{ demoTask with
            lastDoneDate := some demoT,
            nextDueDate := demoT.addDays demoTask.frequencyDays }]) :=
  ⟨by decide, completeTask_frame demoStore "t1" demoTask demoT (by decide)⟩

end DLive
